import Mathlib

/-!
# PassGuard: password generator, strength meter, vault encryption and vault records

A shallow embedding of `lib/passwordGenerator.js`, `lib/crypto.js`, the vault
handlers of `app/api/[[...path]]/route.js` and `handleSaveVaultItem` of
`app/page.js`, followed by the properties proved about them.
-/

namespace PassGuard

/-! ## JavaScript strings -/

/-- A JavaScript string, as its sequence of UTF-16 code units: `s.length` is the length of
the list, and a regular expression without the `u` flag tests single code units. -/
abbrev JSString := List Nat

/-- UTF-16 code units of one Unicode scalar value. -/
def utf16 (c : Char) : List Nat :=
  if c.toNat < 0x10000 then [c.toNat]
  else [0xD800 + (c.toNat - 0x10000) / 0x400, 0xDC00 + (c.toNat - 0x10000) % 0x400]

/-- The JavaScript string written by a string literal. -/
def js (s : String) : JSString := s.toList.flatMap utf16

/-! ## `lib/passwordGenerator.js`: `calculatePasswordStrength` -/

/-- The object `{ score, label, color }` returned by `calculatePasswordStrength`. -/
structure Strength where
  score : Nat
  label : String
  color : String
deriving DecidableEq, Repr

/-- `/[a-z]/.test(password)`. -/
def testLower (password : JSString) : Bool :=
  password.any fun u => decide (0x61 ≤ u) && decide (u ≤ 0x7A)

/-- `/[A-Z]/.test(password)`. -/
def testUpper (password : JSString) : Bool :=
  password.any fun u => decide (0x41 ≤ u) && decide (u ≤ 0x5A)

/-- `/[0-9]/.test(password)`. -/
def testDigit (password : JSString) : Bool :=
  password.any fun u => decide (0x30 ≤ u) && decide (u ≤ 0x39)

/-- `/[^a-zA-Z0-9]/.test(password)`. -/
def testOther (password : JSString) : Bool :=
  password.any fun u =>
    !((decide (0x61 ≤ u) && decide (u ≤ 0x7A)) || (decide (0x41 ≤ u) && decide (u ≤ 0x5A))
      || (decide (0x30 ≤ u) && decide (u ≤ 0x39)))

/-- The array `levels` of `calculatePasswordStrength`. -/
def levels : List Strength :=
  [ { score := 0, label := "Very Weak", color := "bg-red-500" },
    { score := 1, label := "Weak", color := "bg-orange-500" },
    { score := 2, label := "Fair", color := "bg-yellow-500" },
    { score := 3, label := "Strong", color := "bg-green-500" },
    { score := 4, label := "Very Strong", color := "bg-green-600" } ]

/-- The result returned for a falsy password. -/
def noneStrength : Strength := { score := 0, label := "None", color := "bg-gray-300" }

/-- `calculatePasswordStrength(password)`. The argument is `none` when the password is absent
(`undefined` or `null`); `!password` holds for an absent password and for the empty string.
The result is `levels[score]`, which JavaScript leaves `undefined` (here `none`) when the index
is outside the array. -/
def calculatePasswordStrength (password : Option JSString) : Option Strength :=
  match password with
  | none => some noneStrength
  | some [] => some noneStrength
  | some password =>
    let score := 0
    -- Length
    let score := if password.length ≥ 8 then score + 1 else score
    let score := if password.length ≥ 12 then score + 1 else score
    let score := if password.length ≥ 16 then score + 1 else score
    -- Character diversity
    let score := if testLower password then score + 1 else score
    let score := if testUpper password then score + 1 else score
    let score := if testDigit password then score + 1 else score
    let score := if testOther password then score + 1 else score
    -- Normalize to 0-4 scale
    let score := min 4 (score / 2)
    levels[score]?

/-! ### The reference definition of the strength score -/

/-- One point when the condition holds. -/
def point (b : Bool) : Nat := if b then 1 else 0

/-- The raw score of the reference definition: one point for each length threshold reached and
one for each character class present. -/
def rawScore (password : JSString) : Nat :=
  point (decide (password.length ≥ 8)) + point (decide (password.length ≥ 12))
    + point (decide (password.length ≥ 16))
    + point (password.any fun u => decide (0x61 ≤ u ∧ u ≤ 0x7A))
    + point (password.any fun u => decide (0x41 ≤ u ∧ u ≤ 0x5A))
    + point (password.any fun u => decide (0x30 ≤ u ∧ u ≤ 0x39))
    + point (password.any fun u =>
        decide (¬ ((0x61 ≤ u ∧ u ≤ 0x7A) ∨ (0x41 ≤ u ∧ u ≤ 0x5A) ∨ (0x30 ≤ u ∧ u ≤ 0x39))))

/-- The fixed label scale of the reference definition. -/
def scaleLabel : Nat → Option String
  | 0 => some "Very Weak"
  | 1 => some "Weak"
  | 2 => some "Fair"
  | 3 => some "Strong"
  | 4 => some "Very Strong"
  | _ => none

/-! ## `lib/passwordGenerator.js`: `generatePassword` -/

/-- `LOWERCASE`. -/
def LOWERCASE : JSString := js "abcdefghijklmnopqrstuvwxyz"

/-- `UPPERCASE`. -/
def UPPERCASE : JSString := js "ABCDEFGHIJKLMNOPQRSTUVWXYZ"

/-- `NUMBERS`. -/
def NUMBERS : JSString := js "0123456789"

/-- `SYMBOLS`. -/
def SYMBOLS : JSString := js "!@#$%^&*()_+-=[]\x7b\x7d|;:,.<>?"

/-- `LOOKALIKES`: the look-alike characters to exclude. -/
def LOOKALIKES : JSString := js "0O1lI"

/-- The `options` argument of `generatePassword`; a field is `none` when the property is
`undefined`, in which case the destructuring default applies. -/
structure Options where
  length : Option Nat := none
  includeLowercase : Option Bool := none
  includeUppercase : Option Bool := none
  includeNumbers : Option Bool := none
  includeSymbols : Option Bool := none
  excludeLookalikes : Option Bool := none
deriving DecidableEq, Repr

/-- The message of the error thrown for an empty character set. -/
def emptyCharsetError : String := "At least one character type must be selected"

/-- The value of `charset` when `generatePassword` tests `!charset`: the enabled classes
appended in the fixed order, then filtered by `!LOOKALIKES.includes(char)` when
`excludeLookalikes` is set. -/
def effectiveCharset (options : Options) : JSString :=
  let includeLowercase := options.includeLowercase.getD true
  let includeUppercase := options.includeUppercase.getD true
  let includeNumbers := options.includeNumbers.getD true
  let includeSymbols := options.includeSymbols.getD true
  let excludeLookalikes := options.excludeLookalikes.getD true
  let charset : JSString := []
  let charset := if includeLowercase then charset ++ LOWERCASE else charset
  let charset := if includeUppercase then charset ++ UPPERCASE else charset
  let charset := if includeNumbers then charset ++ NUMBERS else charset
  let charset := if includeSymbols then charset ++ SYMBOLS else charset
  let charset :=
    if excludeLookalikes then charset.filter fun char => !LOOKALIKES.contains char else charset
  charset

/-- One draw, `charset[w % charset.length]` for the random word `w`: `none` is JavaScript's
`undefined`, the value of an index outside the string. -/
def draw (charset : JSString) (w : Nat) : Option Nat :=
  charset[w % charset.length]?

/-- `password.join('')` for an array of one-character strings and `undefined` entries, which
`join` writes as the empty string. -/
def join (password : List (Option Nat)) : JSString :=
  password.flatMap fun
    | some u => [u]
    | none => []

/-- The largest `length` that `new Uint32Array(length)` can be given: the conversion of the
argument to an index throws `RangeError` above `2 ^ 53 - 1`. An engine may refuse the
allocation, with the same `RangeError`, at a smaller length; the model keeps the bound the
language fixes. -/
def maxIndex : Nat := 2 ^ 53 - 1

/-- The largest number of bytes `crypto.getRandomValues` fills: for an array of more bytes it
throws `QuotaExceededError`. -/
def randomQuota : Nat := 65536

/-- `generatePassword(options)`. `array i` is the 32-bit word `array[i]` that
`crypto.getRandomValues` has written into the `Uint32Array(length)`, for `i < length`: the
platform's random source is an input of the model. The function catches nothing, so what the
platform throws at `new Uint32Array(length)` or at `crypto.getRandomValues(array)` leaves the
function. The result is `.error` with the message of the `Error` the function throws, or with
the name of the exception the platform throws. -/
def generatePassword (options : Options) (array : Nat → Nat) : Except String JSString :=
  let length := options.length.getD 16
  let charset := effectiveCharset options
  if charset = [] then
    .error emptyCharsetError
  else if length > maxIndex then
    -- new Uint32Array(length)
    .error "RangeError"
  else if 4 * length > randomQuota then
    -- crypto.getRandomValues(array), on an array of 4 * length bytes
    .error "QuotaExceededError"
  else
    let password := (List.range length).map fun i => draw charset (array i)
    .ok (join password)

/-- The number of 32-bit words `w` (of the `2 ^ 32` values an entry of a `Uint32Array` takes)
for which a draw from `charset` selects the character `c`. -/
def drawCount (charset : JSString) (c : Nat) : Nat :=
  Nat.count (fun w => draw charset w = some c) (2 ^ 32)

/-- The effective character set in the words of the specification: the union of the enabled
classes, without the look-alike characters when `excludeLookalikes` is set. -/
def InEffectiveSet (options : Options) (c : Nat) : Prop :=
  ((options.includeLowercase.getD true = true ∧ c ∈ LOWERCASE)
    ∨ (options.includeUppercase.getD true = true ∧ c ∈ UPPERCASE)
    ∨ (options.includeNumbers.getD true = true ∧ c ∈ NUMBERS)
    ∨ (options.includeSymbols.getD true = true ∧ c ∈ SYMBOLS))
  ∧ (options.excludeLookalikes.getD true = true → c ∉ LOOKALIKES)

instance (options : Options) (c : Nat) : Decidable (InEffectiveSet options c) := by
  unfold InEffectiveSet
  infer_instance

/-! ## `lib/crypto.js` -/

/-- The functions of the `crypto-js` library and of the JavaScript runtime that `lib/crypto.js`
calls. They are not part of the repository, so the embedding takes them as parameters. A call
that throws returns `.error` with the message of what it threw. `J` is the type of the values
handed to `JSON.stringify` and returned by `JSON.parse`; a `WordArray` is its list of bytes. -/
structure Runtime (J : Type) where
  /-- `CryptoJS.PBKDF2(password, salt, { keySize, iterations }).toString()`. -/
  PBKDF2 : (password salt : String) → (keySize iterations : Nat) → Except String String
  /-- `CryptoJS.AES.encrypt(message, key).toString()`; `seed` is the randomness the library
  draws for the call. -/
  AESencrypt : (message key : String) → (seed : Nat) → Except String String
  /-- `CryptoJS.AES.decrypt(ciphertext, key)`. -/
  AESdecrypt : (ciphertext key : String) → Except String (List Nat)
  /-- `wordArray.toString(CryptoJS.enc.Utf8)`. -/
  toStringUtf8 : List Nat → Except String String
  /-- `JSON.stringify(data)`. -/
  stringify : J → Except String String
  /-- `JSON.parse(text)`. -/
  parse : String → Except String J

/-- The contract of the library that the round trip relies on: key derivation and encryption
return a result, and decrypting a ciphertext with the key it was encrypted with, then decoding
the bytes as UTF-8, gives the message back. -/
structure Runtime.Lawful {J : Type} (rt : Runtime J) : Prop where
  PBKDF2_ok : ∀ password salt keySize iterations,
    ∃ key, rt.PBKDF2 password salt keySize iterations = .ok key
  AESencrypt_ok : ∀ message key seed, ∃ c, rt.AESencrypt message key seed = .ok c
  AESdecrypt_AESencrypt : ∀ message key seed c, rt.AESencrypt message key seed = .ok c →
    ∃ w, rt.AESdecrypt c key = .ok w ∧ rt.toStringUtf8 w = .ok message

/-- A JSON-representable value: `JSON.stringify` writes it as a text that `JSON.parse` reads
back as the same value. -/
def JSONRepresentable {J : Type} (rt : Runtime J) (data : J) : Prop :=
  ∃ text, rt.stringify data = .ok text ∧ rt.parse text = .ok data

/-- `deriveKey(password, salt = 'passguard-salt-v1')`; `salt` is `none` when the argument is
absent. -/
def deriveKey {J : Type} (rt : Runtime J) (password : String) (salt : Option String) :
    Except String String :=
  let salt := salt.getD "passguard-salt-v1"
  rt.PBKDF2 password salt (256 / 32) 10000

/-- `encryptData(data, password)`: the `try` block, and the `catch` that replaces whatever was
thrown by `Error('Failed to encrypt data')`. -/
def encryptData {J : Type} (rt : Runtime J) (data : J) (password : String) (seed : Nat) :
    Except String String :=
  let attempt : Except String String := do
    let key ← deriveKey rt password none
    let text ← rt.stringify data
    let encrypted ← rt.AESencrypt text key seed
    pure encrypted
  match attempt with
  | .ok encrypted => .ok encrypted
  | .error _ => .error "Failed to encrypt data"

/-- `decryptData(encryptedData, password)`: the `try` block, and the `catch` that replaces
whatever was thrown by `Error('Failed to decrypt data - wrong password?')`. -/
def decryptData {J : Type} (rt : Runtime J) (encryptedData password : String) :
    Except String J :=
  let attempt : Except String J := do
    let key ← deriveKey rt password none
    let decrypted ← rt.AESdecrypt encryptedData key
    let decryptedStr ← rt.toStringUtf8 decrypted
    rt.parse decryptedStr
  match attempt with
  | .ok data => .ok data
  | .error _ => .error "Failed to decrypt data - wrong password?"

/-- A small executable runtime, on which the functions of `lib/crypto.js` can be evaluated.
Its key derivation pads the password with NUL characters to 64 characters (as HMAC pads its key
with zero bytes to the block size) and appends the salt; its cipher writes the key in front of
the message and rejects a ciphertext that does not start with the key; its JSON values are the
booleans. -/
def standIn : Runtime Bool where
  PBKDF2 password salt _ _ :=
    .ok (String.mk
      (password.data ++ List.replicate (64 - password.data.length) (Char.ofNat 0) ++ salt.data))
  AESencrypt message key _ := .ok (String.mk (key.data ++ message.data))
  AESdecrypt ciphertext key :=
    if key.data.isPrefixOf ciphertext.data then
      .ok ((ciphertext.data.drop key.data.length).map Char.toNat)
    else .error "Malformed ciphertext"
  toStringUtf8 w := .ok (String.mk (w.map Char.ofNat))
  stringify data := .ok (if data then "true" else "false")
  parse text :=
    if text = "true" then .ok true
    else if text = "false" then .ok false
    else .error "Unexpected token"

/-! ## Vault records: `app/api/[[...path]]/route.js` and `handleSaveVaultItem` -/

/-- A JavaScript object literal: its properties in the order written. A value is `none` when
it is `undefined`. -/
abbrev Obj (V : Type) := List (String × Option V)

/-- The names of the properties of an object. -/
def Obj.keys {V : Type} (o : Obj V) : List String := o.map Prod.fst

/-- A parsed request body, read by destructuring: `body k` is the value of the property `k`,
`none` (`undefined`) when the body has no such property. -/
abbrev Body (V : Type) := String → Option V

/-- What the vault branch of a handler does. -/
inductive Outcome (V : Type)
  /-- The handler answers `{ error: 'Unauthorized' }` with status 401. -/
  | unauthorized
  /-- The handler hands the document to the collection (`insertOne(item)`, or the `$set` of
  `updateOne`). -/
  | written (doc : Obj V)

/-- The branch `path === '/vault'` of `POST`. `user` is the result of `verifyToken(request)`:
`none` for `null`, else the `userId` of the decoded token; `itemId` is the value of `uuidv4()`
and `createdAt`, `updatedAt` are the two values of `new Date()`. -/
def POST_vault {V : Type} (user : Option (Option V)) (body : Body V)
    (itemId createdAt updatedAt : V) : Outcome V :=
  match user with
  | none => .unauthorized
  | some userId =>
    let title := body "title"
    let username := body "username"
    let _password := body "password"
    let url := body "url"
    let _notes := body "notes"
    let encryptedData := body "encryptedData"
    let item : Obj V :=
      [ ("itemId", some itemId),
        ("userId", userId),
        ("title", title),
        ("username", username),
        ("url", url),
        ("encryptedData", encryptedData),
        ("createdAt", some createdAt),
        ("updatedAt", some updatedAt) ]
    .written item

/-- The branch `path.startsWith('/vault/')` of `PUT`: the document of `$set` handed to
`updateOne`; `updatedAt` is the value of `new Date()`. -/
def PUT_vault {V : Type} (user : Option (Option V)) (body : Body V) (updatedAt : V) :
    Outcome V :=
  match user with
  | none => .unauthorized
  | some _ =>
    let title := body "title"
    let username := body "username"
    let url := body "url"
    let encryptedData := body "encryptedData"
    .written
      [ ("title", title),
        ("username", username),
        ("url", url),
        ("encryptedData", encryptedData),
        ("updatedAt", some updatedAt) ]

/-- The state `formData` of the page. -/
structure FormData where
  title : String
  username : String
  password : String
  url : String
  notes : String
deriving DecidableEq, Repr

/-- The `payload` that `handleSaveVaultItem` sends as the request body, or the error caught
when `encryptData` throws. -/
def handleSaveVaultItem_payload (rt : Runtime FormData) (formData : FormData)
    (masterPassword : String) (seed : Nat) : Except String (Obj String) := do
  let encryptedData ← encryptData rt formData masterPassword seed
  let payload : Obj String :=
    [ ("title", some formData.title),
      ("username", some formData.username),
      ("url", some formData.url),
      ("encryptedData", some encryptedData) ]
  pure payload

/-- The attribute names a vault record may carry. -/
def recordAttributes : List String :=
  ["itemId", "userId", "title", "username", "url", "encryptedData", "createdAt", "updatedAt"]

/-- A request body with a plaintext `password` property. -/
def bodyWithPassword : Body String := fun k =>
  if k = "title" then some "Bank"
  else if k = "password" then some "S3cr3t!"
  else if k = "encryptedData" then some "U2FsdGVk"
  else none

/-- The same request body with a plaintext `notes` property instead. -/
def bodyWithNotes : Body String := fun k =>
  if k = "title" then some "Bank"
  else if k = "notes" then some "n/a"
  else if k = "encryptedData" then some "U2FsdGVk"
  else none

/-! ## Theorems: `calculatePasswordStrength` -/

theorem point_le_one (b : Bool) : point b ≤ 1 := by
  cases b <;> simp [point]

theorem testLower_eq (p : JSString) :
    testLower p = p.any fun u => decide (0x61 ≤ u ∧ u ≤ 0x7A) := by
  simp [testLower, Bool.decide_and]

theorem testUpper_eq (p : JSString) :
    testUpper p = p.any fun u => decide (0x41 ≤ u ∧ u ≤ 0x5A) := by
  simp [testUpper, Bool.decide_and]

theorem testDigit_eq (p : JSString) :
    testDigit p = p.any fun u => decide (0x30 ≤ u ∧ u ≤ 0x39) := by
  simp [testDigit, Bool.decide_and]

theorem testOther_eq (p : JSString) :
    testOther p = p.any fun u =>
      decide (¬ ((0x61 ≤ u ∧ u ≤ 0x7A) ∨ (0x41 ≤ u ∧ u ≤ 0x5A) ∨ (0x30 ≤ u ∧ u ≤ 0x39))) := by
  unfold testOther
  congr 1
  funext u
  by_cases h1 : 0x61 ≤ u <;> by_cases h2 : u ≤ 0x7A <;> by_cases h3 : 0x41 ≤ u <;>
    by_cases h4 : u ≤ 0x5A <;> by_cases h5 : 0x30 ≤ u <;> by_cases h6 : u ≤ 0x39 <;>
    simp [h1, h2, h3, h4, h5, h6]

theorem rawScore_le (p : JSString) : rawScore p ≤ 7 := by
  unfold rawScore
  have h := point_le_one
  linarith [h (decide (p.length ≥ 8)), h (decide (p.length ≥ 12)), h (decide (p.length ≥ 16)),
    h (p.any fun u => decide (0x61 ≤ u ∧ u ≤ 0x7A)),
    h (p.any fun u => decide (0x41 ≤ u ∧ u ≤ 0x5A)),
    h (p.any fun u => decide (0x30 ≤ u ∧ u ≤ 0x39)),
    h (p.any fun u =>
        decide (¬ ((0x61 ≤ u ∧ u ≤ 0x7A) ∨ (0x41 ≤ u ∧ u ≤ 0x5A) ∨ (0x30 ≤ u ∧ u ≤ 0x39))))]

theorem bump_eq (c : Prop) [Decidable c] (s : Nat) :
    (if c then s + 1 else s) = s + point (decide c) := by
  by_cases h : c <;> simp [point, h]

/-- For a non-empty password the code returns `levels[min 4 (rawScore / 2)]`. -/
theorem calculatePasswordStrength_cons (u : Nat) (us : JSString) :
    calculatePasswordStrength (some (u :: us)) = levels[min 4 (rawScore (u :: us) / 2)]? := by
  simp only [calculatePasswordStrength]
  rw [testLower_eq, testUpper_eq, testDigit_eq, testOther_eq]
  simp only [bump_eq, Bool.decide_eq_true, rawScore, Nat.zero_add]

/-- C3. `calculatePasswordStrength` equals the reference definition: for every non-empty
password the result exists, its score is `min 4 (raw / 2)` for the raw score of the reference
definition, its label is the label of that score on the fixed scale, and the label is never
`None`; for the empty and for the absent password the result is the distinguished
`{ score: 0, label: 'None' }`. -/
theorem calculatePasswordStrength_eq_reference :
    (∀ password : JSString, password ≠ [] →
      ∃ r, calculatePasswordStrength (some password) = some r
        ∧ r.score = min 4 (rawScore password / 2)
        ∧ scaleLabel r.score = some r.label
        ∧ r.label ≠ "None")
    ∧ calculatePasswordStrength (some []) =
        some { score := 0, label := "None", color := "bg-gray-300" }
    ∧ calculatePasswordStrength none =
        some { score := 0, label := "None", color := "bg-gray-300" } := by
  refine ⟨?_, rfl, rfl⟩
  intro password hne
  obtain ⟨u, us, rfl⟩ := List.exists_cons_of_ne_nil hne
  rw [calculatePasswordStrength_cons]
  have h7 := rawScore_le (u :: us)
  generalize rawScore (u :: us) = raw at h7
  have h3 : raw / 2 ≤ 3 := by omega
  have hmin : min 4 (raw / 2) = raw / 2 := by omega
  rw [hmin]
  generalize raw / 2 = k at h3
  interval_cases k
  · exact ⟨_, rfl, rfl, rfl, by decide⟩
  · exact ⟨_, rfl, rfl, rfl, by decide⟩
  · exact ⟨_, rfl, rfl, rfl, by decide⟩
  · exact ⟨_, rfl, rfl, rfl, by decide⟩

/-- The reference definition applied to the eight-character password `passw0rd`: raw score 3,
score 1, label `Weak`. -/
theorem calculatePasswordStrength_eq_reference_witness :
    js "passw0rd" ≠ [] ∧
    ∃ r, calculatePasswordStrength (some (js "passw0rd")) = some r
      ∧ r.score = min 4 (rawScore (js "passw0rd") / 2)
      ∧ scaleLabel r.score = some r.label
      ∧ r.label ≠ "None" :=
  ⟨by decide, calculatePasswordStrength_eq_reference.1 (js "passw0rd") (by decide)⟩

/-- No password reaches score 4: the raw score is at most 7, so the normalised score is at
most 3 and the level `Very Strong` is never returned. -/
theorem calculatePasswordStrength_score_le_three (password : Option JSString) (r : Strength)
    (h : calculatePasswordStrength password = some r) : r.score ≤ 3 ∧ r.label ≠ "Very Strong" := by
  match password, h with
  | none, h =>
    simp only [calculatePasswordStrength, Option.some.injEq] at h
    subst h
    exact ⟨by decide, by decide⟩
  | some [], h =>
    simp only [calculatePasswordStrength, Option.some.injEq] at h
    subst h
    exact ⟨by decide, by decide⟩
  | some (u :: us), h =>
    rw [calculatePasswordStrength_cons] at h
    have h7 := rawScore_le (u :: us)
    generalize rawScore (u :: us) = raw at h7 h
    have h3 : raw / 2 ≤ 3 := by omega
    have hmin : min 4 (raw / 2) = raw / 2 := by omega
    rw [hmin] at h
    generalize raw / 2 = k at h3 h
    interval_cases k <;>
      · simp only [levels, List.getElem?_cons_zero, List.getElem?_cons_succ,
          Option.some.injEq] at h
        subst h
        exact ⟨by decide, by decide⟩

/-- Every 20-character password with a lowercase letter, an uppercase letter, a digit and a
symbol is given score 3 with label `Strong`. -/
theorem calculatePasswordStrength_twenty_mixed (password : JSString)
    (hlen : password.length = 20) (hl : testLower password = true)
    (hu : testUpper password = true) (hd : testDigit password = true)
    (ho : testOther password = true) :
    calculatePasswordStrength (some password) =
      some { score := 3, label := "Strong", color := "bg-green-500" } := by
  obtain ⟨u, us, rfl⟩ := List.exists_cons_of_ne_nil
    (fun h : password = [] => by simp [h] at hlen)
  simp only [calculatePasswordStrength, hlen, hl, hu, hd, ho]
  rfl

/-- C4. The 20-character password `aB3!aB3!aB3!aB3!aB3!`, which mixes all four classes, is
given score 3 with label `Strong`, not score 4 with label `Very Strong`. -/
theorem calculatePasswordStrength_twenty_mixed_example :
    (js "aB3!aB3!aB3!aB3!aB3!").length = 20
    ∧ testLower (js "aB3!aB3!aB3!aB3!aB3!") = true
    ∧ testUpper (js "aB3!aB3!aB3!aB3!aB3!") = true
    ∧ testDigit (js "aB3!aB3!aB3!aB3!aB3!") = true
    ∧ testOther (js "aB3!aB3!aB3!aB3!aB3!") = true
    ∧ calculatePasswordStrength (some (js "aB3!aB3!aB3!aB3!aB3!")) =
        some { score := 3, label := "Strong", color := "bg-green-500" } := by
  refine ⟨by decide, by decide, by decide, by decide, by decide, by decide⟩

/-! ## Theorems: `generatePassword` -/

theorem mem_effectiveCharset_iff (options : Options) (c : Nat) :
    c ∈ effectiveCharset options ↔ InEffectiveSet options c := by
  unfold effectiveCharset InEffectiveSet
  cases options.includeLowercase.getD true <;> cases options.includeUppercase.getD true <;>
    cases options.includeNumbers.getD true <;> cases options.includeSymbols.getD true <;>
    cases options.excludeLookalikes.getD true <;>
    simp [List.mem_filter, List.mem_append, or_assoc] <;> tauto

theorem draw_mem (charset : JSString) (hne : charset ≠ []) (w : Nat) :
    ∃ c, draw charset w = some c ∧ c ∈ charset := by
  have hpos : 0 < charset.length := List.length_pos.mpr hne
  have hlt : w % charset.length < charset.length := Nat.mod_lt _ hpos
  refine ⟨charset[w % charset.length], ?_, List.getElem_mem _⟩
  simp [draw, List.getElem?_eq_getElem hlt]

theorem join_draws (charset : JSString) (hne : charset ≠ []) (array : Nat → Nat)
    (l : List Nat) :
    (join (l.map fun i => draw charset (array i))).length = l.length
      ∧ ∀ c ∈ join (l.map fun i => draw charset (array i)), c ∈ charset := by
  induction l with
  | nil => simp [join]
  | cons i l ih =>
    obtain ⟨c, hc, hmem⟩ := draw_mem charset hne (array i)
    have hcons : join ((i :: l).map fun i => draw charset (array i))
        = c :: join (l.map fun i => draw charset (array i)) := by
      simp [join, hc]
    rw [hcons]
    refine ⟨by simp [ih.1], ?_⟩
    intro d hd
    rcases List.mem_cons.mp hd with rfl | hd
    · exact hmem
    · exact ih.2 d hd

theorem effectiveCharset_ne_nil_iff (options : Options) :
    effectiveCharset options ≠ [] ↔ ∃ c, InEffectiveSet options c := by
  constructor
  · intro h
    obtain ⟨c, cs, hc⟩ := List.exists_cons_of_ne_nil h
    exact ⟨c, (mem_effectiveCharset_iff options c).mp (by simp [hc])⟩
  · rintro ⟨c, hc⟩ h
    have := (mem_effectiveCharset_iff options c).mpr hc
    simp [h] at this

/-- The effective character set is empty exactly when the four classes are all disabled: no
class consists of look-alike characters only. -/
theorem effectiveCharset_eq_nil_iff (options : Options) :
    effectiveCharset options = [] ↔
      options.includeLowercase.getD true = false ∧ options.includeUppercase.getD true = false
        ∧ options.includeNumbers.getD true = false ∧ options.includeSymbols.getD true = false := by
  unfold effectiveCharset
  generalize options.includeLowercase.getD true = a
  generalize options.includeUppercase.getD true = b
  generalize options.includeNumbers.getD true = c
  generalize options.includeSymbols.getD true = d
  generalize options.excludeLookalikes.getD true = e
  revert a b c d e
  decide

/-- With a non-empty character set and a length of at most 16384 the platform fills the array
and the drawn characters are returned. -/
theorem generatePassword_ok (options : Options) (array : Nat → Nat)
    (hcs : effectiveCharset options ≠ []) (hmax : options.length.getD 16 ≤ 16384) :
    generatePassword options array = .ok (join ((List.range (options.length.getD 16)).map
      fun i => draw (effectiveCharset options) (array i))) := by
  have h1 : ¬ options.length.getD 16 > maxIndex := by
    simp only [maxIndex]
    omega
  have h2 : ¬ 4 * options.length.getD 16 > randomQuota := by
    simp only [randomQuota]
    omega
  simp only [generatePassword, if_neg hcs, if_neg h1, if_neg h2]

/-- A string is returned only for a non-empty character set and a length of at most 16384, and
it is the string of the drawn characters. -/
theorem generatePassword_eq_ok (options : Options) (array : Nat → Nat) (s : JSString)
    (h : generatePassword options array = .ok s) :
    effectiveCharset options ≠ [] ∧ options.length.getD 16 ≤ 16384
      ∧ s = join ((List.range (options.length.getD 16)).map
          fun i => draw (effectiveCharset options) (array i)) := by
  simp only [generatePassword] at h
  split at h
  · cases h
  · rename_i hcs
    split at h
    · cases h
    · split at h
      · cases h
      · rename_i h1 h2
        simp only [randomQuota] at h2
        exact ⟨hcs, by omega, (Except.ok.inj h).symm⟩

/-- With a non-empty character set and a length above 16384 the platform throws and no string
is returned. -/
theorem generatePassword_too_long (options : Options) (array : Nat → Nat)
    (hcs : effectiveCharset options ≠ []) (hmax : 16384 < options.length.getD 16) :
    generatePassword options array = .error "RangeError"
      ∨ generatePassword options array = .error "QuotaExceededError" := by
  have h2 : 4 * options.length.getD 16 > randomQuota := by
    simp only [randomQuota]
    omega
  by_cases h1 : options.length.getD 16 > maxIndex
  · exact Or.inl (by simp only [generatePassword, if_neg hcs, if_pos h1])
  · exact Or.inr (by simp only [generatePassword, if_neg hcs, if_neg h1, if_pos h2])

/-- C5. Charset respect: for a non-empty effective character set, each character of a string
returned by `generatePassword` belongs to the effective set, the union of the enabled classes
without the look-alikes when `excludeLookalikes` is set, and with `excludeLookalikes` the string
contains none of `0`, `O`, `1`, `l`, `I`; a string is returned for every length up to 16384
and every array of random words. -/
theorem generatePassword_charset (options : Options) (array : Nat → Nat)
    (hne : ∃ c, InEffectiveSet options c) :
    (options.length.getD 16 ≤ 16384 → ∃ s, generatePassword options array = .ok s)
    ∧ ∀ s, generatePassword options array = .ok s →
      ∀ c ∈ s, InEffectiveSet options c ∧
        (options.excludeLookalikes.getD true = true →
          c ≠ 0x30 ∧ c ≠ 0x4F ∧ c ≠ 0x31 ∧ c ≠ 0x6C ∧ c ≠ 0x49) := by
  have hcs := (effectiveCharset_ne_nil_iff options).mpr hne
  refine ⟨fun hmax => ⟨_, generatePassword_ok options array hcs hmax⟩, ?_⟩
  intro s hs c hc
  obtain ⟨-, -, rfl⟩ := generatePassword_eq_ok options array s hs
  have hin : InEffectiveSet options c :=
    (mem_effectiveCharset_iff options c).mp ((join_draws _ hcs array _).2 c hc)
  refine ⟨hin, fun hx => ?_⟩
  have hnot := hin.2 hx
  refine ⟨?_, ?_, ?_, ?_, ?_⟩ <;> rintro rfl <;> exact hnot (by decide)

/-- The default policy with length 3: a password is returned, and each of its characters is in
the effective set and is no look-alike. -/
theorem generatePassword_charset_witness :
    (∃ c, InEffectiveSet { length := some 3 } c) ∧
    ∃ s, generatePassword { length := some 3 } (fun i => 7 + 34 * i) = .ok s ∧
      ∀ c ∈ s, InEffectiveSet { length := some 3 } c ∧
        (({ length := some 3 } : Options).excludeLookalikes.getD true = true →
          c ≠ 0x30 ∧ c ≠ 0x4F ∧ c ≠ 0x31 ∧ c ≠ 0x6C ∧ c ≠ 0x49) := by
  have h := generatePassword_charset { length := some 3 } (fun i => 7 + 34 * i)
    ⟨0x61, by decide⟩
  obtain ⟨s, hs⟩ := h.1 (by decide)
  exact ⟨⟨0x61, by decide⟩, s, hs, h.2 s hs⟩

/-- C7. `generatePassword` fails with the empty-character-set error exactly when the effective
character set is empty; a policy with the four classes disabled fails with that error for every
length and either value of `excludeLookalikes`, and returns no password. -/
theorem generatePassword_fails_iff (options : Options) (array : Nat → Nat) :
    (generatePassword options array = .error "At least one character type must be selected"
        ↔ ¬ ∃ c, InEffectiveSet options c)
    ∧ (∀ (n : Option Nat) (x : Option Bool),
        generatePassword
          { length := n, includeLowercase := some false, includeUppercase := some false,
            includeNumbers := some false, includeSymbols := some false,
            excludeLookalikes := x } array
          = .error "At least one character type must be selected") := by
  constructor
  · rw [← effectiveCharset_ne_nil_iff, not_not]
    constructor
    · intro h
      by_contra hcs
      simp only [generatePassword, if_neg hcs] at h
      split at h
      · exact absurd (Except.error.inj h) (by decide)
      · split at h
        · exact absurd (Except.error.inj h) (by decide)
        · cases h
    · intro hcs
      simp [generatePassword, hcs, emptyCharsetError]
  · intro n x
    have hcs : effectiveCharset
        { length := n, includeLowercase := some false, includeUppercase := some false,
          includeNumbers := some false, includeSymbols := some false,
          excludeLookalikes := x } = [] :=
      (effectiveCharset_eq_nil_iff _).mpr ⟨rfl, rfl, rfl, rfl⟩
    simp [generatePassword, hcs, emptyCharsetError]

/-- C8, as stated, fails at `n = 16385` for the default policy: the array has 65540 bytes,
`crypto.getRandomValues` throws `QuotaExceededError`, and no string is returned. -/
theorem generatePassword_length_16385 :
    0 < 16385 ∧ (∃ c, InEffectiveSet { length := some 16385 } c)
      ∧ generatePassword { length := some 16385 } (fun i => 7 + 34 * i)
          = .error "QuotaExceededError"
      ∧ ¬ ∃ s, generatePassword { length := some 16385 } (fun i => 7 + 34 * i) = .ok s := by
  have hcs : effectiveCharset { length := some 16385 } ≠ [] :=
    (effectiveCharset_ne_nil_iff _).mpr ⟨0x61, by decide⟩
  have herr : generatePassword { length := some 16385 } (fun i => 7 + 34 * i)
      = .error "QuotaExceededError" := by
    simp only [generatePassword, if_neg hcs]
    rfl
  refine ⟨by decide, ⟨0x61, by decide⟩, herr, ?_⟩
  rintro ⟨s, hs⟩
  rw [herr] at hs
  cases hs

/-- C8, amended. Generator length: for `0 < n ≤ 16384` and a non-empty effective character set,
`generatePassword` with `length: n` returns a string of exactly `n` characters. -/
theorem generatePassword_length (options : Options) (array : Nat → Nat) (n : Nat)
    (_hn : 0 < n) (hmax : n ≤ 16384) (hlen : options.length = some n)
    (hne : ∃ c, InEffectiveSet options c) :
    ∃ s, generatePassword options array = .ok s ∧ s.length = n := by
  have hcs := (effectiveCharset_ne_nil_iff options).mpr hne
  have hmax' : options.length.getD 16 ≤ 16384 := by
    rw [hlen]
    exact hmax
  refine ⟨_, generatePassword_ok options array hcs hmax', ?_⟩
  rw [(join_draws _ hcs array _).1, hlen]
  simp

/-- Length 5 with digits only and look-alikes excluded: a string of five characters. -/
theorem generatePassword_length_witness :
    (0 < 5 ∧ 5 ≤ 16384 ∧ ∃ c, InEffectiveSet
      { length := some 5, includeLowercase := some false, includeUppercase := some false,
        includeSymbols := some false } c) ∧
    ∃ s, generatePassword
        { length := some 5, includeLowercase := some false, includeUppercase := some false,
          includeSymbols := some false } (fun i => 3 * i + 1) = .ok s ∧ s.length = 5 :=
  ⟨⟨by decide, by decide, 0x32, by decide⟩,
    generatePassword_length _ (fun i => 3 * i + 1) 5 (by decide) (by decide) rfl
      ⟨0x32, by decide⟩⟩

/-! ## Theorems: uniformity of a draw -/

theorem effectiveCharset_nodup (options : Options) : (effectiveCharset options).Nodup := by
  unfold effectiveCharset
  generalize options.includeLowercase.getD true = a
  generalize options.includeUppercase.getD true = b
  generalize options.includeNumbers.getD true = c
  generalize options.includeSymbols.getD true = d
  generalize options.excludeLookalikes.getD true = e
  revert a b c d e
  decide

/-- In a string without repeated characters, the character at index `k` is drawn exactly by the
words congruent to `k` modulo the length, so the number of words below `N` that draw it is
`N / m`, plus one when `k < N % m`. -/
theorem count_draw (charset : JSString) (hnd : charset.Nodup) (k : Nat)
    (hk : k < charset.length) (N : Nat) :
    Nat.count (fun w => draw charset w = some charset[k]) N =
      N / charset.length + if k < N % charset.length then 1 else 0 := by
  have hpos : 0 < charset.length := Nat.lt_of_le_of_lt (Nat.zero_le k) hk
  have hiff : ∀ w, draw charset w = some charset[k] ↔ w ≡ k [MOD charset.length] := by
    intro w
    have hlt : w % charset.length < charset.length := Nat.mod_lt _ hpos
    simp only [draw, List.getElem?_eq_getElem hlt, Option.some.injEq, Nat.ModEq,
      Nat.mod_eq_of_lt hk]
    exact hnd.getElem_inj_iff
  have h := Nat.count_modEq_card N hpos k
  rw [Nat.mod_eq_of_lt hk] at h
  rw [← h]
  exact le_antisymm (Nat.count_mono_left fun w hw => (hiff w).mp hw)
    (Nat.count_mono_left fun w hw => (hiff w).mpr hw)

/-- C6, as stated, fails for the default policy: its effective set has 83 characters, and of
the `2 ^ 32` words `51746594` select `a` while `51746593` select `?`. -/
theorem drawCount_default_biased :
    0x61 ∈ effectiveCharset {} ∧ 0x3F ∈ effectiveCharset {}
      ∧ drawCount (effectiveCharset {}) 0x61 = 51746594
      ∧ drawCount (effectiveCharset {}) 0x3F = 51746593 := by
  have hl : (effectiveCharset {}).length = 83 := by decide
  have ha := count_draw (effectiveCharset {}) (effectiveCharset_nodup {}) 0 (by decide) (2 ^ 32)
  have hq := count_draw (effectiveCharset {}) (effectiveCharset_nodup {}) 82 (by decide) (2 ^ 32)
  have ea : (effectiveCharset {})[0] = 0x61 := by decide
  have eq : (effectiveCharset {})[82] = 0x3F := by decide
  rw [ea, hl] at ha
  rw [eq, hl] at hq
  refine ⟨by decide, by decide, ?_, ?_⟩
  · rw [drawCount, ha]
    norm_num
  · rw [drawCount, hq]
    norm_num

/-- C6, amended. A draw selects `charset[w % m]`: of the `2 ^ 32` words, `2 ^ 32 / m` select the
character at index `k` of the effective set, and one more when `k < 2 ^ 32 % m`; all characters
are selected by the same number of words exactly when `m` divides `2 ^ 32`. -/
theorem drawCount_eq (options : Options) (hne : ∃ c, InEffectiveSet options c) :
    (∀ (k : Nat) (hk : k < (effectiveCharset options).length),
      drawCount (effectiveCharset options) (effectiveCharset options)[k] =
        2 ^ 32 / (effectiveCharset options).length
          + if k < 2 ^ 32 % (effectiveCharset options).length then 1 else 0)
    ∧ ((∀ c ∈ effectiveCharset options, ∀ d ∈ effectiveCharset options,
          drawCount (effectiveCharset options) c = drawCount (effectiveCharset options) d)
        ↔ (effectiveCharset options).length ∣ 2 ^ 32) := by
  have hcs := (effectiveCharset_ne_nil_iff options).mpr hne
  have hnd := effectiveCharset_nodup options
  have hpos : 0 < (effectiveCharset options).length := List.length_pos.mpr hcs
  have hform : ∀ (k : Nat) (hk : k < (effectiveCharset options).length),
      drawCount (effectiveCharset options) (effectiveCharset options)[k] =
        2 ^ 32 / (effectiveCharset options).length
          + if k < 2 ^ 32 % (effectiveCharset options).length then 1 else 0 :=
    fun k hk => count_draw _ hnd k hk (2 ^ 32)
  refine ⟨hform, ?_, ?_⟩
  · intro hall
    by_contra hdvd
    have hr : 0 < 2 ^ 32 % (effectiveCharset options).length :=
      Nat.pos_of_ne_zero fun h0 => hdvd (Nat.dvd_of_mod_eq_zero h0)
    have hrlt : 2 ^ 32 % (effectiveCharset options).length < (effectiveCharset options).length :=
      Nat.mod_lt _ hpos
    have hlast : (effectiveCharset options).length - 1 < (effectiveCharset options).length := by
      omega
    have h0 := hform 0 hpos
    have h1 := hform _ hlast
    have heq := hall _ (List.getElem_mem hpos) _ (List.getElem_mem hlast)
    rw [h0, h1, if_pos hr, if_neg (by omega)] at heq
    omega
  · intro hdvd c hc d hd
    obtain ⟨i, hi, rfl⟩ := List.getElem_of_mem hc
    obtain ⟨j, hj, rfl⟩ := List.getElem_of_mem hd
    rw [hform i hi, hform j hj, Nat.mod_eq_zero_of_dvd hdvd]
    simp

/-- Upper-case letters and digits without the look-alikes: 32 characters, and `A` is selected
by `2 ^ 27` of the `2 ^ 32` words. -/
theorem drawCount_eq_witness :
    (∃ c, InEffectiveSet { includeLowercase := some false, includeSymbols := some false } c)
      ∧ drawCount
          (effectiveCharset { includeLowercase := some false, includeSymbols := some false })
          0x41 = 2 ^ 27 := by
  refine ⟨⟨0x41, by decide⟩, ?_⟩
  have h := (drawCount_eq { includeLowercase := some false, includeSymbols := some false }
    ⟨0x41, by decide⟩).1 0 (by decide)
  have e : (effectiveCharset
      { includeLowercase := some false, includeSymbols := some false })[0] = 0x41 := by decide
  have hl : (effectiveCharset
      { includeLowercase := some false, includeSymbols := some false }).length = 32 := by decide
  rw [e, hl] at h
  rw [h]
  norm_num

/-! ## Theorems: `lib/crypto.js` -/

theorem standIn_lawful : standIn.Lawful where
  PBKDF2_ok _ _ _ _ := ⟨_, rfl⟩
  AESencrypt_ok _ _ _ := ⟨_, rfl⟩
  AESdecrypt_AESencrypt message key seed c h := by
    simp only [standIn, Except.ok.injEq] at h
    subst h
    refine ⟨message.data.map Char.toNat, ?_, ?_⟩
    · simp [standIn]
    · simp [standIn, Function.comp_def]

theorem standIn_representable (b : Bool) : JSONRepresentable standIn b := by
  cases b
  · exact ⟨"false", rfl, by simp [standIn]⟩
  · exact ⟨"true", rfl, by simp [standIn]⟩

/-- With a lawful runtime `encryptData` returns a ciphertext of the text of `data`, encrypted
with the key derived from the password. -/
theorem encryptData_ok {J : Type} (rt : Runtime J) (hrt : rt.Lawful) (data : J)
    (hdata : JSONRepresentable rt data) (password : String) (seed : Nat) :
    ∃ key text blob, deriveKey rt password none = .ok key ∧ rt.stringify data = .ok text
      ∧ rt.parse text = .ok data ∧ rt.AESencrypt text key seed = .ok blob
      ∧ encryptData rt data password seed = .ok blob := by
  obtain ⟨key, hkey⟩ := hrt.PBKDF2_ok password "passguard-salt-v1" (256 / 32) 10000
  obtain ⟨text, htext, hparse⟩ := hdata
  obtain ⟨blob, hblob⟩ := hrt.AESencrypt_ok text key seed
  have hk : deriveKey rt password none = .ok key := hkey
  refine ⟨key, text, blob, hk, htext, hparse, hblob, ?_⟩
  simp only [encryptData, hk, htext, hblob, bind, Except.bind, pure, Except.pure]

/-- A blob sealed by `encryptData` with the password `p` is opened by `decryptData` with every
password that derives the same key as `p`. -/
theorem decryptData_of_same_key {J : Type} (rt : Runtime J) (hrt : rt.Lawful) (data : J)
    (hdata : JSONRepresentable rt data) (p : String) (seed : Nat) :
    ∃ blob, encryptData rt data p seed = .ok blob
      ∧ ∀ p2, deriveKey rt p2 none = deriveKey rt p none → decryptData rt blob p2 = .ok data := by
  obtain ⟨key, text, blob, hk, _, hparse, hblob, henc⟩ :=
    encryptData_ok rt hrt data hdata p seed
  obtain ⟨w, hdec, hutf⟩ := hrt.AESdecrypt_AESencrypt text key seed blob hblob
  refine ⟨blob, henc, fun p2 hkey => ?_⟩
  simp only [decryptData, hkey, hk, hdec, hutf, hparse, bind, Except.bind]

/-- C1. Round trip: with a runtime that meets the library contract, for every JSON-representable
`data` and every master password, `encryptData` returns a blob and `decryptData` of that blob
with the same password returns `data`. -/
theorem decryptData_encryptData {J : Type} (rt : Runtime J) (hrt : rt.Lawful) (data : J)
    (hdata : JSONRepresentable rt data) (password : String) (seed : Nat) :
    ∃ blob, encryptData rt data password seed = .ok blob
      ∧ decryptData rt blob password = .ok data := by
  obtain ⟨blob, henc, hdec⟩ := decryptData_of_same_key rt hrt data hdata password seed
  exact ⟨blob, henc, hdec password rfl⟩

/-- The round trip on the executable runtime, for the value `true` and the password
`hunter2`. -/
theorem decryptData_encryptData_witness :
    standIn.Lawful ∧ JSONRepresentable standIn true ∧
    ∃ blob, encryptData standIn true "hunter2" 0 = .ok blob
      ∧ decryptData standIn blob "hunter2" = .ok true :=
  ⟨standIn_lawful, standIn_representable true,
    decryptData_encryptData standIn standIn_lawful true (standIn_representable true) "hunter2" 0⟩

/-- `decryptData` returns a value exactly when the key derivation, the AES decryption, the
UTF-8 decoding and the JSON parsing all succeed, and the value is the parsed one. -/
theorem decryptData_eq_ok_iff {J : Type} (rt : Runtime J) (blob password : String) (v : J) :
    decryptData rt blob password = .ok v ↔
      ∃ key w text, deriveKey rt password none = .ok key ∧ rt.AESdecrypt blob key = .ok w
        ∧ rt.toStringUtf8 w = .ok text ∧ rt.parse text = .ok v := by
  simp only [decryptData, bind, Except.bind]
  cases hk : deriveKey rt password none with
  | error e => simp
  | ok key =>
    cases hw : rt.AESdecrypt blob key with
    | error e => simp [hw]
    | ok w =>
      cases ht : rt.toStringUtf8 w with
      | error e => simp [hw, ht]
      | ok text =>
        cases hv : rt.parse text with
        | error e => simp [hw, ht, hv]
        | ok v1 => simp [hw, ht, hv]

/-- `decryptData` either returns a value or fails with the one decryption error. -/
theorem decryptData_ok_or_error {J : Type} (rt : Runtime J) (blob password : String) :
    (∃ v, decryptData rt blob password = .ok v)
      ∨ decryptData rt blob password = .error "Failed to decrypt data - wrong password?" := by
  simp only [decryptData]
  split
  · exact Or.inl ⟨_, rfl⟩
  · exact Or.inr rfl

/-- C2, as stated, fails on the executable runtime: the passwords `a` and `a` followed by a NUL
character differ and derive the same key, so the blob sealed with the first is opened with the
second and `decryptData` returns the value. -/
theorem decryptData_wrong_password_example :
    "a" ≠ "a\x00" ∧ standIn.Lawful ∧
    ∃ blob, encryptData standIn true "a" 0 = .ok blob
      ∧ decryptData standIn blob "a\x00" = .ok true := by
  refine ⟨by decide, standIn_lawful, ?_⟩
  obtain ⟨blob, henc, hdec⟩ :=
    decryptData_of_same_key standIn standIn_lawful true (standIn_representable true) "a" 0
  refine ⟨blob, henc, hdec _ ?_⟩
  simp only [deriveKey, standIn]
  rfl

/-- C2, amended. `decryptData` compares no passwords. For a blob sealed by `encryptData` with
the password `p`, opening it with `p2` returns a value exactly when the key derivation from
`p2`, the AES decryption under that key, the UTF-8 decoding and the JSON parsing all succeed; it
returns `data` when `p2` derives the same key as `p`; and whenever it returns no value it fails
with the decryption error. -/
theorem decryptData_other_password {J : Type} (rt : Runtime J) (hrt : rt.Lawful) (data : J)
    (hdata : JSONRepresentable rt data) (p p2 : String) (seed : Nat) :
    ∃ blob, encryptData rt data p seed = .ok blob
      ∧ (deriveKey rt p2 none = deriveKey rt p none → decryptData rt blob p2 = .ok data)
      ∧ (∀ v, decryptData rt blob p2 = .ok v ↔
          ∃ key w text, deriveKey rt p2 none = .ok key ∧ rt.AESdecrypt blob key = .ok w
            ∧ rt.toStringUtf8 w = .ok text ∧ rt.parse text = .ok v)
      ∧ ((¬ ∃ v, decryptData rt blob p2 = .ok v) →
          decryptData rt blob p2 = .error "Failed to decrypt data - wrong password?") := by
  obtain ⟨blob, henc, hdec⟩ := decryptData_of_same_key rt hrt data hdata p seed
  exact ⟨blob, henc, hdec p2, fun v => decryptData_eq_ok_iff rt blob p2 v,
    fun hno => (decryptData_ok_or_error rt blob p2).resolve_left hno⟩

/-- On the executable runtime the password `b` does not open a blob sealed with `a`: the
decryption error is returned. -/
theorem decryptData_other_password_witness :
    standIn.Lawful ∧ JSONRepresentable standIn true ∧
    ∃ blob, encryptData standIn true "a" 0 = .ok blob
      ∧ decryptData standIn blob "b" = .error "Failed to decrypt data - wrong password?" := by
  refine ⟨standIn_lawful, standIn_representable true, ?_⟩
  obtain ⟨blob, henc, -, -, herr⟩ :=
    decryptData_other_password standIn standIn_lawful true (standIn_representable true) "a" "b" 0
  refine ⟨blob, henc, herr ?_⟩
  have hb : blob = String.mk
      ("a".data ++ List.replicate 63 (Char.ofNat 0) ++ "passguard-salt-v1".data ++ "true".data) := by
    have : encryptData standIn true "a" 0 = .ok (String.mk
        ("a".data ++ List.replicate 63 (Char.ofNat 0) ++ "passguard-salt-v1".data
          ++ "true".data)) := rfl
    rw [henc] at this
    exact Except.ok.inj this
  subst hb
  rintro ⟨v, hv⟩
  have : decryptData standIn (String.mk
      ("a".data ++ List.replicate 63 (Char.ofNat 0) ++ "passguard-salt-v1".data ++ "true".data))
      "b" = .error "Failed to decrypt data - wrong password?" := by
    simp only [decryptData, deriveKey, standIn, bind, Except.bind]
    rfl
  rw [this] at hv
  cases hv

/-- C10, as stated, fails: on the executable runtime `deriveKey` returns a key for the empty
passphrase, with the default salt and with the salt `s`. -/
theorem deriveKey_empty_example :
    (∃ key, deriveKey standIn "" none = .ok key)
      ∧ (∃ key, deriveKey standIn "" (some "s") = .ok key)
      ∧ ¬ ∃ e, deriveKey standIn "" none = .error e := by
  refine ⟨⟨_, rfl⟩, ⟨_, rfl⟩, ?_⟩
  rintro ⟨e, he⟩
  cases he

/-- C10, amended. `deriveKey` validates nothing: for every passphrase, the empty one included,
and every salt its outcome is that of `PBKDF2` on the same passphrase and salt (the default salt
when none is given) with a key size of 8 words and 10000 iterations; with a runtime that meets
the library contract it returns a key for the empty passphrase. -/
theorem deriveKey_eq {J : Type} (rt : Runtime J) (password : String) (salt : Option String) :
    deriveKey rt password salt = rt.PBKDF2 password (salt.getD "passguard-salt-v1") 8 10000
      ∧ (rt.Lawful → ∃ key, deriveKey rt "" salt = .ok key) :=
  ⟨rfl, fun hrt => hrt.PBKDF2_ok "" (salt.getD "passguard-salt-v1") (256 / 32) 10000⟩

/-! ## Theorems: vault records -/

/-- C9. Search-field leakage: the item built by `POST /vault`, the fields written by
`PUT /vault/:id` and the payload built by `handleSaveVaultItem` carry only attributes among
`itemId`, `userId`, `title`, `username`, `url`, `encryptedData`, `createdAt`, `updatedAt`, and
none named `password` or `notes`; two request bodies that agree on every property other than
`password` and `notes` produce the same written document. -/
theorem vault_no_plaintext_secret {V : Type} (user : Option (Option V))
    (itemId createdAt updatedAt : V) :
    (∀ (body : Body V) (item : Obj V),
        POST_vault user body itemId createdAt updatedAt = .written item →
        item.keys = ["itemId", "userId", "title", "username", "url", "encryptedData",
          "createdAt", "updatedAt"]
        ∧ "password" ∉ item.keys ∧ "notes" ∉ item.keys)
    ∧ (∀ (body : Body V) (doc : Obj V), PUT_vault user body updatedAt = .written doc →
        (∀ k ∈ doc.keys, k ∈ recordAttributes) ∧ "password" ∉ doc.keys ∧ "notes" ∉ doc.keys)
    ∧ (∀ (rt : Runtime FormData) (formData : FormData) (masterPassword : String) (seed : Nat)
        (payload : Obj String),
        handleSaveVaultItem_payload rt formData masterPassword seed = .ok payload →
        (∀ k ∈ payload.keys, k ∈ recordAttributes)
        ∧ "password" ∉ payload.keys ∧ "notes" ∉ payload.keys)
    ∧ (∀ body₁ body₂ : Body V,
        (∀ k, k ≠ "password" → k ≠ "notes" → body₁ k = body₂ k) →
        POST_vault user body₁ itemId createdAt updatedAt
            = POST_vault user body₂ itemId createdAt updatedAt
          ∧ PUT_vault user body₁ updatedAt = PUT_vault user body₂ updatedAt) := by
  refine ⟨?_, ?_, ?_, ?_⟩
  · intro body item h
    cases user with
    | none => simp [POST_vault] at h
    | some userId =>
      simp only [POST_vault, Outcome.written.injEq] at h
      subst h
      exact ⟨rfl, by simp [Obj.keys], by simp [Obj.keys]⟩
  · intro body doc h
    cases user with
    | none => simp [PUT_vault] at h
    | some userId =>
      simp only [PUT_vault, Outcome.written.injEq] at h
      subst h
      exact ⟨by simp [Obj.keys, recordAttributes], by simp [Obj.keys], by simp [Obj.keys]⟩
  · intro rt formData masterPassword seed payload h
    simp only [handleSaveVaultItem_payload, bind, Except.bind, pure, Except.pure] at h
    cases henc : encryptData rt formData masterPassword seed with
    | error e => simp [henc] at h
    | ok encryptedData =>
      simp only [henc, Except.ok.injEq] at h
      subst h
      exact ⟨by simp [Obj.keys, recordAttributes], by simp [Obj.keys], by simp [Obj.keys]⟩
  · intro body₁ body₂ h
    have ht := h "title" (by decide) (by decide)
    have hu := h "username" (by decide) (by decide)
    have hl := h "url" (by decide) (by decide)
    have he := h "encryptedData" (by decide) (by decide)
    cases user with
    | none => exact ⟨rfl, rfl⟩
    | some userId => simp only [POST_vault, PUT_vault, ht, hu, hl, he, and_self]

/-- Two request bodies for the user `u1` that differ in `password` and `notes` only: the same
item is written, and it has no attribute `password` or `notes`. -/
theorem vault_no_plaintext_secret_witness :
    POST_vault (some (some "u1")) bodyWithPassword "id-1" "t0" "t0"
      = POST_vault (some (some "u1")) bodyWithNotes "id-1" "t0" "t0"
    ∧ ∃ item, POST_vault (some (some "u1")) bodyWithPassword "id-1" "t0" "t0" = .written item
        ∧ "password" ∉ item.keys ∧ "notes" ∉ item.keys := by
  have h := vault_no_plaintext_secret (some (some "u1")) "id-1" "t0" "t0"
  have hsame : ∀ k, k ≠ "password" → k ≠ "notes" → bodyWithPassword k = bodyWithNotes k := by
    intro k hp hn
    simp [bodyWithPassword, bodyWithNotes, hp, hn]
  obtain ⟨item, hitem⟩ : ∃ item,
      POST_vault (some (some "u1")) bodyWithPassword "id-1" "t0" "t0" = .written item :=
    ⟨_, rfl⟩
  exact ⟨(h.2.2.2 bodyWithPassword bodyWithNotes hsame).1, item, hitem,
    (h.1 bodyWithPassword item hitem).2⟩

/-! ## Theorems: the single decryption failure -/

/-- C11. Single generic decryption failure: whichever step of `decryptData` throws (the key
derivation, the AES decryption, the UTF-8 decoding, or the JSON parsing of the decrypted string,
the empty decrypted string included when `JSON.parse` rejects it), `decryptData` fails with the
one error `Failed to decrypt data - wrong password?`; it returns a value only when every step
succeeds, and the value is the one `JSON.parse` returned for the decrypted string. -/
theorem decryptData_single_error {J : Type} (rt : Runtime J) (blob password : String) :
    (∀ e, deriveKey rt password none = .error e →
        decryptData rt blob password = .error "Failed to decrypt data - wrong password?")
    ∧ (∀ key e, deriveKey rt password none = .ok key → rt.AESdecrypt blob key = .error e →
        decryptData rt blob password = .error "Failed to decrypt data - wrong password?")
    ∧ (∀ key w e, deriveKey rt password none = .ok key → rt.AESdecrypt blob key = .ok w →
        rt.toStringUtf8 w = .error e →
        decryptData rt blob password = .error "Failed to decrypt data - wrong password?")
    ∧ (∀ key w text e, deriveKey rt password none = .ok key → rt.AESdecrypt blob key = .ok w →
        rt.toStringUtf8 w = .ok text → rt.parse text = .error e →
        decryptData rt blob password = .error "Failed to decrypt data - wrong password?")
    ∧ (∀ key w e, deriveKey rt password none = .ok key → rt.AESdecrypt blob key = .ok w →
        rt.toStringUtf8 w = .ok "" → rt.parse "" = .error e →
        decryptData rt blob password = .error "Failed to decrypt data - wrong password?")
    ∧ (∀ v, decryptData rt blob password = .ok v ↔
        ∃ key w text, deriveKey rt password none = .ok key ∧ rt.AESdecrypt blob key = .ok w
          ∧ rt.toStringUtf8 w = .ok text ∧ rt.parse text = .ok v)
    ∧ ((∃ v, decryptData rt blob password = .ok v)
        ∨ decryptData rt blob password = .error "Failed to decrypt data - wrong password?") := by
  have hparse : ∀ key w text e, deriveKey rt password none = .ok key →
      rt.AESdecrypt blob key = .ok w → rt.toStringUtf8 w = .ok text → rt.parse text = .error e →
      decryptData rt blob password = .error "Failed to decrypt data - wrong password?" := by
    intro key w text e hk hw ht hp
    simp only [decryptData, hk, hw, ht, hp, bind, Except.bind]
  refine ⟨?_, ?_, ?_, hparse, fun key w e hk hw ht hp => hparse key w "" e hk hw ht hp,
    fun v => decryptData_eq_ok_iff rt blob password v, decryptData_ok_or_error rt blob password⟩
  · intro e hk
    simp only [decryptData, hk, bind, Except.bind]
  · intro key e hk hw
    simp only [decryptData, hk, hw, bind, Except.bind]
  · intro key w e hk hw ht
    simp only [decryptData, hk, hw, ht, bind, Except.bind]

/-- On the executable runtime, with the password `a`: the blob `zzz` is rejected by the
decryption step, the blob that decrypts to the empty string is rejected by the parsing step, and
both failures are the same error. -/
theorem decryptData_single_error_witness :
    decryptData standIn "zzz" "a" = .error "Failed to decrypt data - wrong password?"
    ∧ ∃ key, deriveKey standIn "a" none = .ok key ∧ standIn.AESdecrypt key key = .ok []
        ∧ standIn.toStringUtf8 [] = .ok ""
        ∧ decryptData standIn key "a" = .error "Failed to decrypt data - wrong password?" := by
  obtain ⟨key, hk⟩ : ∃ key, deriveKey standIn "a" none = .ok key := ⟨_, rfl⟩
  have hbad : standIn.AESdecrypt "zzz" key = .error "Malformed ciphertext" := by
    cases hk
    rfl
  have hw : standIn.AESdecrypt key key = .ok [] := by
    simp [standIn]
  have ht : standIn.toStringUtf8 [] = .ok "" := rfl
  have hp : standIn.parse "" = .error "Unexpected token" := by
    simp [standIn]
  exact ⟨(decryptData_single_error standIn "zzz" "a").2.1 key _ hk hbad,
    key, hk, hw, ht, (decryptData_single_error standIn key "a").2.2.2.2.1 key [] _ hk hw ht hp⟩

end PassGuard
